import Mathlib

set_option maxHeartbeats 1000000

/-
Shallow embedding of the ProBit exchange connector core
(hummingbot/connector/exchange/probit/probit_market.py,
probit_in_flight_order.py, probit_order_book.py and the
order-book tracker), together with proofs about its order
lifecycle tracking, trade deduplication, polling-failure
handling, bulk cancellation and order-book snapshot logic.

Conventions of the embedding:
- Python `Decimal` amounts and prices are embedded as `Rat`
  (exact decimal arithmetic is exact rational arithmetic).
- `datetime` trade times are embedded as `Nat` (a totally
  ordered timestamp; only order and `max` are used).
- The in-flight order dictionary `self._in_flight_orders`
  is an association list `List (String × ProbitInFlightOrder)`
  keyed by client order id.
- `self.trigger_event(...)` calls are collected into an
  explicit event list, in the order the code triggers them.
  The `self.current_timestamp` field carried by every event is
  ambient clock state and is elided from the event values.
- `await`ed venue calls are passed in as explicit
  `Except String α` arguments: `Except.error e` embeds the
  call raising an exception `e`.
-/

inductive OrderType where
  | limit
  | market
  | limitMaker
  deriving DecidableEq, Repr

inductive TradeType where
  | buy
  | sell
  deriving DecidableEq, Repr

/--
ProbitInFlightOrder (probit_in_flight_order.py).  The fields
client_order_id .. amount and last_state are stored by the
`InFlightOrderBase.__init__` the subclass delegates to (that base
class lives in hummingbot core, outside src/): it records the
constructor arguments, sets `last_state` to the given
`initial_state` and initializes the executed amounts and fee paid
to zero and the fee asset to None, as witnessed in src/ by
`from_json` re-setting exactly those fields from saved data.
`trade_id_set` is the set the subclass's own `__init__` adds.
-/
structure ProbitInFlightOrder where
  client_order_id : String
  exchange_order_id : Option String
  trading_pair : String
  order_type : OrderType
  trade_type : TradeType
  price : Rat
  amount : Rat
  executed_amount_base : Rat
  executed_amount_quote : Rat
  fee_asset : Option String
  fee_paid : Rat
  last_state : String
  trade_id_set : List Nat
  deriving DecidableEq, Repr

/--
Constructor of ProbitInFlightOrder: in the Python source the
`initial_state` parameter defaults to the string "open"; call
sites that rely on the default pass "open" here explicitly.
-/
def ProbitInFlightOrder.init (client_order_id : String) (exchange_order_id : Option String)
    (trading_pair : String) (order_type : OrderType) (trade_type : TradeType)
    (price : Rat) (amount : Rat) (initial_state : String) : ProbitInFlightOrder :=
  { client_order_id := client_order_id
    exchange_order_id := exchange_order_id
    trading_pair := trading_pair
    order_type := order_type
    trade_type := trade_type
    price := price
    amount := amount
    executed_amount_base := 0
    executed_amount_quote := 0
    fee_asset := none
    fee_paid := 0
    last_state := initial_state
    trade_id_set := [] }

/-- is_done property: last_state in the set of "filled" and "cancelled". -/
def ProbitInFlightOrder.is_done (o : ProbitInFlightOrder) : Bool :=
  o.last_state == "filled" || o.last_state == "cancelled"

/-- is_failure property: last_state in the singleton set of "rejected". -/
def ProbitInFlightOrder.is_failure (o : ProbitInFlightOrder) : Bool :=
  o.last_state == "rejected"

/-- is_cancelled property: last_state in the singleton set of "cancelled". -/
def ProbitInFlightOrder.is_cancelled (o : ProbitInFlightOrder) : Bool :=
  o.last_state == "cancelled"

/--
Splitting a string on the dash separator (Python str.split with
separator a dash), written by direct recursion over the character
list so that it evaluates by reduction.
-/
def splitDashAux : List Char → List Char → List String
  | [], acc => [String.mk acc.reverse]
  | c :: rest, acc =>
    if c = '-' then String.mk acc.reverse :: splitDashAux rest []
    else splitDashAux rest (c :: acc)

/-- Splitting a string on the dash separator. -/
def splitOnDash (s : String) : List String := splitDashAux s.data []

/-- base_asset property of InFlightOrderBase: trading_pair split on a dash, first part. -/
def ProbitInFlightOrder.base_asset (o : ProbitInFlightOrder) : String :=
  (splitOnDash o.trading_pair).headD ""

/-- quote_asset property of InFlightOrderBase: trading_pair split on a dash, second part. -/
def ProbitInFlightOrder.quote_asset (o : ProbitInFlightOrder) : String :=
  ((splitOnDash o.trading_pair).drop 1).headD ""

/--
A trade record from the trade_history endpoint as consumed by
`update_with_trade_update` and `_process_trade_message` and
`_update_trades`: fields id, order_id, price, quantity,
fee_currency_id, fee_amount, time, status and market_id.
-/
structure TradeMsg where
  id : Nat
  order_id : String
  price : Rat
  quantity : Rat
  fee_currency_id : String
  fee_amount : Rat
  time : Nat
  status : String
  market_id : String
  deriving DecidableEq, Repr

/--
ProbitInFlightOrder.update_with_trade_update: rejects the trade
(returning the order unchanged and False) when the trade's
order_id differs from the order's exchange_order_id or the trade
id was already recorded; otherwise records the trade id, adds
quantity and price*quantity to the executed amounts unless the
order is already in state "filled", always updates the fee
fields, and returns True.
-/
def ProbitInFlightOrder.update_with_trade_update (o : ProbitInFlightOrder) (t : TradeMsg) :
    ProbitInFlightOrder × Bool :=
  if o.exchange_order_id ≠ some t.order_id ∨ t.id ∈ o.trade_id_set then
    (o, false)
  else
    let o1 := { o with trade_id_set := t.id :: o.trade_id_set }
    let o2 :=
      if o1.last_state ≠ "filled" then
        { o1 with
          executed_amount_base := o1.executed_amount_base + t.quantity
          executed_amount_quote := o1.executed_amount_quote + t.price * t.quantity }
      else o1
    ({ o2 with fee_asset := some t.fee_currency_id, fee_paid := o2.fee_paid + t.fee_amount }, true)

/--
An order-status record from the get-order endpoint, as consumed
by `_process_order_message`: fields client_order_id, status,
filled_quantity and filled_cost.
-/
structure OrderMsg where
  client_order_id : String
  status : String
  filled_quantity : Rat
  filled_cost : Rat
  deriving DecidableEq, Repr

/--
The lifecycle events the connector triggers on the event bus.
Buy/Sell event-class pairs are merged into one constructor with a
TradeType tag mirroring the code's event_tag/event_class choice.
Field lists follow the Python event classes with the ambient
timestamp elided:
orderCompleted  = Buy/SellOrderCompletedEvent(order_id,
  base_asset, quote_asset, fee_asset, base_amount, quote_amount,
  fee, order_type);
orderCancelled  = OrderCancelledEvent(order_id);
orderFailure    = MarketOrderFailureEvent(order_id, order_type);
orderFilled     = OrderFilledEvent(order_id, trading_pair,
  trade_type, order_type, price, amount, fee currency and amount,
  exchange_trade_id);
orderCreated    = Buy/SellOrderCreatedEvent(order_type,
  trading_pair, amount, price, order_id).
-/
inductive Event where
  | orderCompleted (side : TradeType) (order_id : String) (base_asset : String)
      (quote_asset : String) (fee_asset : Option String)
      (base_amount : Rat) (quote_amount : Rat) (fee : Rat) (otype : OrderType)
  | orderCancelled (order_id : String)
  | orderFailure (order_id : String) (otype : OrderType)
  | orderFilled (order_id : String) (trading_pair : String) (side : TradeType)
      (otype : OrderType) (price : Rat) (qty : Rat)
      (fee_currency : String) (fee : Rat) (exchange_trade_id : Nat)
  | orderCreated (side : TradeType) (otype : OrderType) (trading_pair : String)
      (amount : Rat) (price : Rat) (order_id : String)
  deriving DecidableEq, Repr

/-- The `self._in_flight_orders` dictionary as an association list. -/
abbrev InFlight := List (String × ProbitInFlightOrder)

/-- Dictionary lookup `self._in_flight_orders[client_order_id]`. -/
def lookupOrder (m : InFlight) (cid : String) : Option ProbitInFlightOrder :=
  (m.find? (fun p => p.1 == cid)).map Prod.snd

/--
Write-back of an in-place mutation of the order object held under
an existing key (Python mutates the object the dict points to).
-/
def setOrder (m : InFlight) (cid : String) (o : ProbitInFlightOrder) : InFlight :=
  m.map (fun p => if p.1 == cid then (cid, o) else p)

/-- stop_tracking_order: delete the key from the dictionary if present. -/
def removeOrder (m : InFlight) (cid : String) : InFlight :=
  m.filter (fun p => p.1 != cid)

/-- Dictionary assignment `d[k] = v`: replace an existing key, else append. -/
def dictSet (m : InFlight) (cid : String) (o : ProbitInFlightOrder) : InFlight :=
  if (m.find? (fun p => p.1 == cid)).isSome then setOrder m cid o else m ++ [(cid, o)]

/--
start_tracking_order: put a freshly constructed
ProbitInFlightOrder into _in_flight_orders; the call site does
not pass initial_state, so the constructor default "open" is used.
-/
def start_tracking_order (m : InFlight) (order_id : String) (exchange_order_id : Option String)
    (trading_pair : String) (trade_type : TradeType) (price : Rat) (amount : Rat)
    (order_type : OrderType) : InFlight :=
  dictSet m order_id
    (ProbitInFlightOrder.init order_id exchange_order_id trading_pair order_type trade_type
      price amount "open")

/--
tracking_states property: the entries of _in_flight_orders whose
order is not done.  The Python code maps each retained value
through `to_json` (hummingbot core serialization, outside src/);
that serialization is elided here and the order record itself is
kept as the exported value.
-/
def tracking_states (m : InFlight) : InFlight :=
  m.filter (fun p => !p.2.is_done)

/-- The incomplete-order list computed at the top of cancel_all. -/
def incomplete_orders (m : InFlight) : List ProbitInFlightOrder :=
  (m.map Prod.snd).filter (fun o => !o.is_done)

/--
_process_order_message: looks up the order by client_order_id
(no-op when untracked); when the reported status differs from the
locally held one, stores the new status and, when the new status
is "filled", triggers a completion event carrying the message's
filled_quantity and filled_cost together with the order's fee
data; afterwards, if the (updated) order is cancelled it triggers
a cancellation event and stops tracking it, and if it is a
failure it triggers a failure event and stops tracking it.
-/
def process_order_message (m : InFlight) (msg : OrderMsg) : InFlight × List Event :=
  match lookupOrder m msg.client_order_id with
  | none => (m, [])
  | some tracked =>
    let upd :=
      if tracked.last_state ≠ msg.status then
        let tracked2 := { tracked with last_state := msg.status }
        if msg.status = "filled" then
          (tracked2,
            [Event.orderCompleted tracked2.trade_type tracked2.client_order_id
              tracked2.base_asset tracked2.quote_asset tracked2.fee_asset
              msg.filled_quantity msg.filled_cost tracked2.fee_paid tracked2.order_type])
        else (tracked2, [])
      else (tracked, [])
    let m2 := setOrder m msg.client_order_id upd.1
    if upd.1.is_cancelled then
      (removeOrder m2 msg.client_order_id, upd.2 ++ [Event.orderCancelled msg.client_order_id])
    else if upd.1.is_failure then
      (removeOrder m2 msg.client_order_id,
        upd.2 ++ [Event.orderFailure msg.client_order_id upd.1.order_type])
    else (m2, upd.2)

/--
The result-processing loop of _update_order_status over the
exch_orders list produced by safe_gather(..., return_exceptions =
True).  A gathered item is `Except.error e` when that order's
get_order call raised e, `Except.ok none` when the response
carried no "id" key (the loop logs and continues), and
`Except.ok (some msg)` otherwise.  Encountering an exception item
re-raises it (`raise exch_order`), which aborts the loop: the
third component is the re-raised exception, and items after it
are not processed.
-/
def process_order_results (m : InFlight) :
    List (Except String (Option OrderMsg)) → InFlight × List Event × Option String
  | [] => (m, [], none)
  | Except.error e :: _ => (m, [], some e)
  | Except.ok none :: rest => process_order_results m rest
  | Except.ok (some msg) :: rest =>
    let r := process_order_message m msg
    let r2 := process_order_results r.1 rest
    (r2.1, r.2 ++ r2.2.1, r2.2.2)

/--
_process_trade_message: finds the first tracked order whose
exchange_order_id equals the trade's order_id (no-op when none
matches), applies update_with_trade_update (no-op when that
returns False), triggers an OrderFilled event with the trade's
price, quantity and fee, and stops tracking the order when its
last_state is "filled" and its executed base amount equals the
order amount.
-/
def process_trade_message (m : InFlight) (t : TradeMsg) : InFlight × List Event :=
  match m.find? (fun p => p.2.exchange_order_id == some t.order_id) with
  | none => (m, [])
  | some p =>
    let r := p.2.update_with_trade_update t
    if r.2 then
      let m2 := setOrder m p.1 r.1
      let evs := [Event.orderFilled r.1.client_order_id r.1.trading_pair r.1.trade_type
        r.1.order_type t.price t.quantity t.fee_currency_id t.fee_amount t.id]
      if r.1.last_state = "filled" ∧ r.1.executed_amount_base = r.1.amount then
        (removeOrder m2 r.1.client_order_id, evs)
      else (m2, evs)
    else (m, [])

/--
The per-batch body of _update_trades for one gathered
trade-history result (one trading pair; the per-pair
last_max_trade_ts dictionary is specialized to the single pair
being polled, so the watermark is one Nat).  The batch is
traversed reversed (trades[::-1], oldest first); a trade is
processed only when its time is strictly greater than the stored
watermark and its status is "settled"; max_trade_ts starts at the
epoch (0) and takes the maximum over the processed trades'
times; afterwards the watermark becomes the maximum of
max_trade_ts and the old watermark.  Returns the new watermark,
the updated orders, the triggered events and the list of trades
that were passed to _process_trade_message, in processing order.
The body of the per-trade for-loop is split out as
`trades_batch_step`.
-/
def trades_batch_step (wm : Nat) (acc : Nat × InFlight × List Event × List TradeMsg)
    (t : TradeMsg) : Nat × InFlight × List Event × List TradeMsg :=
  if wm < t.time ∧ t.status = "settled" then
    let pr := process_trade_message acc.2.1 t
    (max acc.1 t.time, pr.1, acc.2.2.1 ++ pr.2, acc.2.2.2 ++ [t])
  else acc

def update_trades_batch (wm : Nat) (m : InFlight) (trades : List TradeMsg) :
    Nat × InFlight × List Event × List TradeMsg :=
  let r := trades.reverse.foldl (trades_batch_step wm) (0, m, [], [])
  (max r.1 wm, r.2.1, r.2.2.1, r.2.2.2)

/--
The result-processing loop of _update_trades over the gathered
per-pair trade-history results.  An `Except.error` item is
re-raised (`raise result`), aborting the loop; the surrounding
try/except of _update_trades catches it, so the method returns
with the remaining results unprocessed — the final Bool records
that this abort happened.
-/
def update_trades_results (wm : Nat) (m : InFlight) :
    List (Except String (List TradeMsg)) → Nat × InFlight × List Event × Bool
  | [] => (wm, m, [], false)
  | Except.error _ :: _ => (wm, m, [], true)
  | Except.ok trades :: rest =>
    let r := update_trades_batch wm m trades
    let r2 := update_trades_results r.1 r.2.1 rest
    (r2.1, r2.2.1, r.2.2.1 ++ r2.2.2.1, r2.2.2.2)

/-- TradingRule as built by _format_trading_rules. -/
structure TradingRule where
  trading_pair : String
  min_order_size : Rat
  max_order_size : Rat
  min_price_increment : Rat
  min_base_amount_increment : Rat
  deriving DecidableEq, Repr

/--
Outcome of a _create_order invocation: `raised` when the
coroutine ends with an uncaught exception (the below-minimum
ValueError is raised before the try block, so nothing catches it
inside _create_order; safe_ensure_future merely logs it), `done`
otherwise, carrying the resulting in-flight dictionary and the
triggered events.
-/
inductive CreateOrderResult where
  | raised
  | done (m : InFlight) (events : List Event)
  deriving DecidableEq, Repr

/--
_create_order, taken at the point after quantize_order_amount and
quantize_order_price (hummingbot core helpers outside src/): the
amount and price arguments are the already-quantized values.  If
the amount is below the trading rule's minimum order size a
ValueError is raised (before the try block, hence uncaught).
Otherwise the venue create_order call is made: on success the
order starts being tracked with the exchange order id taken from
the response and the order-created event fires; on an exception
the except branch stops tracking the order id and triggers a
MarketOrderFailureEvent carrying the client order id and order
type.
-/
def create_order (rule : TradingRule) (m : InFlight) (trade_type : TradeType)
    (order_id : String) (trading_pair : String) (amount : Rat) (order_type : OrderType)
    (price : Rat) (venue : Except String String) : CreateOrderResult :=
  if amount < rule.min_order_size then
    CreateOrderResult.raised
  else
    match venue with
    | Except.ok exchange_order_id =>
      CreateOrderResult.done
        (start_tracking_order m order_id (some exchange_order_id) trading_pair trade_type
          price amount order_type)
        [Event.orderCreated trade_type order_type trading_pair amount price order_id]
    | Except.error _ =>
      CreateOrderResult.done (removeOrder m order_id)
        [Event.orderFailure order_id order_type]

/-- CancellationResult (hummingbot core data type): order id and success flag. -/
structure CancellationResult where
  order_id : String
  success : Bool
  deriving DecidableEq, Repr

/--
The value returned by _execute_cancel for a tracked order, given
the venue cancel_order response: the client order id on success,
none otherwise (every failure path of _execute_cancel is caught
inside it and falls through to an implicit None return).  When
exchange_order_id is unset the code awaits the non-coroutine
get_exchange_order_id(), raising a TypeError that the except
catches.  On a response dict whose id equals the exchange order
id the order id is returned; a mismatched response falls through
to None.  The OrderCancelled event and stop_tracking_order side
effects on the success path do not affect the returned value and
are elided here.
-/
def execute_cancel (o : ProbitInFlightOrder) (resp : Except String String) : Option String :=
  match o.exchange_order_id with
  | none => none
  | some ex =>
    match resp with
    | Except.error _ => none
    | Except.ok rid => if rid = ex then some o.client_order_id else none

/--
The successful-cancellation ids collected by cancel_all's result
loop: each incomplete order's _execute_cancel outcome (its venue
response is the positionally matching element of resps), keeping
the ids of the successful ones in gather order.
-/
def cancel_successes (m : InFlight) (resps : List (Except String String)) : List String :=
  ((incomplete_orders m).zip resps).filterMap (fun p => execute_cancel p.1 p.2)

/--
cancel_all: gathers _execute_cancel over the incomplete tracked
orders (return_exceptions = True; resps gives each order's venue
response, assumed delivered within the shared timeout), records a
successful CancellationResult for every non-None result and a
failed CancellationResult for every order id remaining in
order_id_set, and returns successes followed by failures.
-/
def cancel_all (m : InFlight) (resps : List (Except String String)) :
    List CancellationResult :=
  let succ := cancel_successes m resps
  succ.map (fun i => CancellationResult.mk i true) ++
    (((incomplete_orders m).map (fun o => o.client_order_id)).filter
      (fun i => decide (i ∉ succ))).map (fun i => CancellationResult.mk i false)

/--
The locally queryable order book of one trading pair: bid and ask
price levels plus the version token of the applied snapshot
(none before the first snapshot).
-/
structure OrderBookState where
  bids : List (Rat × Rat)
  asks : List (Rat × Rat)
  snapshot_uid : Option Nat
  deriving DecidableEq, Repr

/--
Modelled from the spec: the snapshot application of the
venue-agnostic `OrderBook` data type (`apply_snapshot` /
`restore_from_snapshot_and_diffs` in hummingbot core, invoked by
`_track_single_book` in src/ but itself not under src/).  Per
spec section 4.1, `applySnapshot(pair, bids, asks, versionToken)`
replaces the book iff the version token is strictly greater than
the book's current version (or the book does not yet exist);
otherwise the call is a silent no-op.
-/
def applySnapshot (b : OrderBookState) (bids asks : List (Rat × Rat)) (version : Nat) :
    OrderBookState :=
  match b.snapshot_uid with
  | none => ⟨bids, asks, some version⟩
  | some cur => if cur < version then ⟨bids, asks, some version⟩ else b

/-- A sequence of snapshot applications, in arrival order. -/
def applySnapshots (b : OrderBookState)
    (l : List (List (Rat × Rat) × List (Rat × Rat) × Nat)) : OrderBookState :=
  l.foldl (fun bk s => applySnapshot bk s.1 s.2.1 s.2.2) b

/-
Helper lemmas about the in-flight dictionary operations.
-/

theorem lookup_nil (cid : String) : lookupOrder [] cid = none := rfl

theorem lookup_setOrder_self (m : InFlight) (cid : String) (o o' : ProbitInFlightOrder)
    (h : lookupOrder m cid = some o) : lookupOrder (setOrder m cid o') cid = some o' := by
  induction m with
  | nil => simp [lookupOrder] at h
  | cons p rest ih =>
    by_cases hp : (p.1 == cid) = true
    · simp [lookupOrder, setOrder, List.find?, hp]
    · have h' : lookupOrder rest cid = some o := by
        simpa [lookupOrder, List.find?, hp] using h
      simpa [lookupOrder, setOrder, List.find?, hp] using ih h'

theorem lookup_removeOrder_self (m : InFlight) (cid : String) :
    lookupOrder (removeOrder m cid) cid = none := by
  unfold lookupOrder removeOrder
  rw [Option.map_eq_none', List.find?_eq_none]
  intro x hx
  have hfx := List.of_mem_filter hx
  simp at hfx ⊢
  exact hfx

/-
Helper lemmas about _process_order_message.
-/

theorem process_untracked (m : InFlight) (msg : OrderMsg)
    (h : lookupOrder m msg.client_order_id = none) :
    process_order_message m msg = (m, []) := by
  unfold process_order_message
  rw [h]

theorem process_filled_eq (m : InFlight) (msg : OrderMsg) (o : ProbitInFlightOrder)
    (hlk : lookupOrder m msg.client_order_id = some o)
    (hne : o.last_state ≠ msg.status) (hst : msg.status = "filled") :
    process_order_message m msg =
      (setOrder m msg.client_order_id { o with last_state := "filled" },
       [Event.orderCompleted o.trade_type o.client_order_id o.base_asset o.quote_asset
         o.fee_asset msg.filled_quantity msg.filled_cost o.fee_paid o.order_type]) := by
  have hne' : o.last_state ≠ "filled" := hst ▸ hne
  unfold process_order_message
  rw [hlk, hst]
  simp [hne', ProbitInFlightOrder.is_cancelled, ProbitInFlightOrder.is_failure,
    ProbitInFlightOrder.base_asset, ProbitInFlightOrder.quote_asset]

theorem process_cancelled_eq (m : InFlight) (msg : OrderMsg) (o : ProbitInFlightOrder)
    (hlk : lookupOrder m msg.client_order_id = some o)
    (hne : o.last_state ≠ msg.status) (hst : msg.status = "cancelled") :
    process_order_message m msg =
      (removeOrder (setOrder m msg.client_order_id { o with last_state := "cancelled" })
         msg.client_order_id,
       [Event.orderCancelled msg.client_order_id]) := by
  have hne' : o.last_state ≠ "cancelled" := hst ▸ hne
  unfold process_order_message
  rw [hlk, hst]
  simp [hne', ProbitInFlightOrder.is_cancelled, ProbitInFlightOrder.is_failure]

theorem process_same_state_eq (m : InFlight) (msg : OrderMsg) (o : ProbitInFlightOrder)
    (hlk : lookupOrder m msg.client_order_id = some o)
    (heq : o.last_state = msg.status)
    (hnc : o.is_cancelled = false) (hnf : o.is_failure = false) :
    (process_order_message m msg).2 = [] := by
  unfold process_order_message
  rw [hlk]
  simp [heq, hnc, hnf]

/-
Concrete data shared by the completion-event and idempotence
claims: a tracked buy order whose locally accumulated executed
totals (10 base, 10 quote) differ from the totals the status poll
reports (7 and 7).
-/

def oC1 : ProbitInFlightOrder :=
  { client_order_id := "B1"
    exchange_order_id := some "E1"
    trading_pair := "XRP-USDT"
    order_type := OrderType.limit
    trade_type := TradeType.buy
    price := 1
    amount := 10
    executed_amount_base := 10
    executed_amount_quote := 10
    fee_asset := some "USDT"
    fee_paid := 0
    last_state := "open"
    trade_id_set := [11, 12] }

def mC1 : InFlight := [("B1", oC1)]

def msgC1 : OrderMsg :=
  { client_order_id := "B1", status := "filled", filled_quantity := 7, filled_cost := 7 }

/--
C1 counterexample: the claim states that the completion event
emitted on the first "filled" status poll carries the locally
accumulated executed base and quote totals.  At this concrete
input the tracked order has accumulated executed totals 10 and
10, the poll reports filled_quantity 7 and filled_cost 7, and the
emitted completion event carries 7 and 7 — the reported totals,
which differ from the accumulated ones.
-/
theorem C1_counterexample :
    (process_order_message mC1 msgC1).2 =
      [Event.orderCompleted TradeType.buy "B1" "XRP" "USDT" (some "USDT") 7 7 0
        OrderType.limit]
    ∧ oC1.executed_amount_base = 10 ∧ oC1.executed_amount_quote = 10
    ∧ ((7 : Rat) ≠ 10) := by
  refine ⟨by decide, rfl, rfl, by decide⟩

/--
C1 (amended): when an order-status poll first reports the
terminal status "filled" for a tracked order, the completion
event that is emitted carries the totals reported in the poll
response (filled_quantity and filled_cost), not the locally
accumulated trade-derived executed amounts.
-/
theorem C1_completion_event_reported_totals (m : InFlight) (msg : OrderMsg)
    (o : ProbitInFlightOrder)
    (hlk : lookupOrder m msg.client_order_id = some o)
    (hne : o.last_state ≠ msg.status) (hst : msg.status = "filled") :
    (process_order_message m msg).2 =
      [Event.orderCompleted o.trade_type o.client_order_id o.base_asset o.quote_asset
        o.fee_asset msg.filled_quantity msg.filled_cost o.fee_paid o.order_type] := by
  rw [process_filled_eq m msg o hlk hne hst]

/-- C1 witness: the amended theorem applied at the concrete input above. -/
theorem C1_witness :
    (process_order_message mC1 msgC1).2 =
      [Event.orderCompleted oC1.trade_type oC1.client_order_id oC1.base_asset
        oC1.quote_asset oC1.fee_asset msgC1.filled_quantity msgC1.filled_cost
        oC1.fee_paid oC1.order_type] :=
  C1_completion_event_reported_totals mC1 msgC1 oC1 (by decide) (by decide) rfl

/--
C5: processing the same terminal order-status message ("filled"
or "cancelled") twice for a tracked order emits exactly one event
on the first processing, and the second processing of the
identical message emits nothing: after a first "filled" the
stored state equals the reported one so the status branch is
skipped and neither the cancelled nor the failure branch fires;
after a first "cancelled" the order has left the tracked set so
the message is ignored.
-/
theorem C5_terminal_idempotent (m : InFlight) (msg : OrderMsg) (o : ProbitInFlightOrder)
    (hlk : lookupOrder m msg.client_order_id = some o)
    (hne : o.last_state ≠ msg.status)
    (hterm : msg.status = "filled" ∨ msg.status = "cancelled") :
    (process_order_message m msg).2.length = 1 ∧
    (process_order_message (process_order_message m msg).1 msg).2 = [] := by
  rcases hterm with hst | hst
  · have h1 := process_filled_eq m msg o hlk hne hst
    refine ⟨by rw [h1]; rfl, ?_⟩
    rw [h1]
    refine process_same_state_eq _ msg { o with last_state := "filled" }
      (lookup_setOrder_self m msg.client_order_id o _ hlk) hst.symm ?_ ?_
    · simp [ProbitInFlightOrder.is_cancelled]
    · simp [ProbitInFlightOrder.is_failure]
  · have h1 := process_cancelled_eq m msg o hlk hne hst
    refine ⟨by rw [h1]; rfl, ?_⟩
    rw [h1]
    exact congrArg Prod.snd
      (process_untracked _ msg (lookup_removeOrder_self _ msg.client_order_id))

/-- C5 witness: the idempotence theorem applied at the concrete input above. -/
theorem C5_witness :
    (process_order_message mC1 msgC1).2.length = 1 ∧
    (process_order_message (process_order_message mC1 msgC1).1 msgC1).2 = [] :=
  C5_terminal_idempotent mC1 msgC1 oC1 (by decide) (by decide) (Or.inl rfl)

/--
C10: is_done holds exactly when last_state is "filled" or
"cancelled"; an order whose last_state is "rejected" is not done,
hence it is kept by the tracking_states export and by the
incomplete-order selection of cancel_all.
-/
theorem C10_is_done_characterization :
    (∀ o : ProbitInFlightOrder,
      o.is_done = true ↔ (o.last_state = "filled" ∨ o.last_state = "cancelled"))
    ∧ (∀ o : ProbitInFlightOrder, o.last_state = "rejected" → o.is_done = false)
    ∧ (∀ (m : InFlight) (k : String) (o : ProbitInFlightOrder),
        o.last_state = "rejected" → (k, o) ∈ m → (k, o) ∈ tracking_states m)
    ∧ (∀ (m : InFlight) (o : ProbitInFlightOrder),
        o.last_state = "rejected" → o ∈ m.map Prod.snd → o ∈ incomplete_orders m) := by
  refine ⟨?_, ?_, ?_, ?_⟩
  · intro o
    simp [ProbitInFlightOrder.is_done]
  · intro o h
    unfold ProbitInFlightOrder.is_done
    rw [h]
    rfl
  · intro m k o h hm
    refine List.mem_filter.mpr ⟨hm, ?_⟩
    show (!o.is_done) = true
    unfold ProbitInFlightOrder.is_done
    rw [h]
    rfl
  · intro m o h hm
    refine List.mem_filter.mpr ⟨hm, ?_⟩
    show (!o.is_done) = true
    unfold ProbitInFlightOrder.is_done
    rw [h]
    rfl

/-- A concrete rejected tracked order for the C10 witness. -/
def oC10 : ProbitInFlightOrder :=
  { client_order_id := "R1"
    exchange_order_id := some "E10"
    trading_pair := "XRP-USDT"
    order_type := OrderType.limit
    trade_type := TradeType.sell
    price := 2
    amount := 3
    executed_amount_base := 0
    executed_amount_quote := 0
    fee_asset := none
    fee_paid := 0
    last_state := "rejected"
    trade_id_set := [] }

def mC10 : InFlight := [("R1", oC10)]

/-- C10 witness: the characterization applied to a concrete rejected order. -/
theorem C10_witness :
    (oC10.is_done = true ↔ (oC10.last_state = "filled" ∨ oC10.last_state = "cancelled"))
    ∧ oC10.is_done = false
    ∧ ("R1", oC10) ∈ tracking_states mC10
    ∧ oC10 ∈ incomplete_orders mC10 :=
  ⟨C10_is_done_characterization.1 oC10,
   C10_is_done_characterization.2.1 oC10 rfl,
   C10_is_done_characterization.2.2.1 mC10 "R1" oC10 rfl (by decide),
   C10_is_done_characterization.2.2.2 mC10 oC10 rfl (by decide)⟩

/-
Helper lemmas about update_with_trade_update.
-/

theorem update_already_recorded (o : ProbitInFlightOrder) (t : TradeMsg)
    (h : t.id ∈ o.trade_id_set) : o.update_with_trade_update t = (o, false) := by
  unfold ProbitInFlightOrder.update_with_trade_update
  rw [if_pos (Or.inr h)]

theorem update_admitted (o : ProbitInFlightOrder) (t : TradeMsg)
    (hex : o.exchange_order_id = some t.order_id)
    (hid : t.id ∉ o.trade_id_set)
    (hst : o.last_state ≠ "filled") :
    o.update_with_trade_update t =
      ({ o with
          trade_id_set := t.id :: o.trade_id_set
          executed_amount_base := o.executed_amount_base + t.quantity
          executed_amount_quote := o.executed_amount_quote + t.price * t.quantity
          fee_asset := some t.fee_currency_id
          fee_paid := o.fee_paid + t.fee_amount }, true) := by
  unfold ProbitInFlightOrder.update_with_trade_update
  rw [if_neg (by simp [hex, hid])]
  simp [hst]

/-- Folding a list of trade updates over an order, keeping the order component. -/
def applyFills (o : ProbitInFlightOrder) (ts : List TradeMsg) : ProbitInFlightOrder :=
  ts.foldl (fun a t => (a.update_with_trade_update t).1) o

theorem applyFills_executed_general (ts : List TradeMsg) :
    ∀ o : ProbitInFlightOrder, o.last_state ≠ "filled" →
    (∀ t ∈ ts, o.exchange_order_id = some t.order_id) →
    (∀ t ∈ ts, t.id ∉ o.trade_id_set) →
    (ts.map (fun t => t.id)).Nodup →
    (applyFills o ts).executed_amount_base =
      o.executed_amount_base + (ts.map (fun t => t.quantity)).sum := by
  induction ts with
  | nil => intro o _ _ _ _; simp [applyFills]
  | cons t rest ih =>
    intro o hst hex hid hnd
    have hupd := update_admitted o t (hex t (List.mem_cons_self t rest))
      (hid t (List.mem_cons_self t rest)) hst
    have hstep : applyFills o (t :: rest) =
        applyFills ({ o with
          trade_id_set := t.id :: o.trade_id_set
          executed_amount_base := o.executed_amount_base + t.quantity
          executed_amount_quote := o.executed_amount_quote + t.price * t.quantity
          fee_asset := some t.fee_currency_id
          fee_paid := o.fee_paid + t.fee_amount }) rest := by
      simp [applyFills, hupd]
    rw [hstep, ih _ (by simpa using hst) ?_ ?_ ?_]
    · simp [add_assoc]
    · intro t' ht'
      simpa using hex t' (List.mem_cons_of_mem t ht')
    · intro t' ht'
      have h1 : t'.id ∉ o.trade_id_set := hid t' (List.mem_cons_of_mem t ht')
      have h2 : t'.id ≠ t.id := by
        intro hcontra
        have hnotin := (List.nodup_cons.mp hnd).1
        have hmem : t'.id ∈ rest.map (fun t => t.id) :=
          List.mem_map_of_mem (fun t => t.id) ht'
        rw [hcontra] at hmem
        exact hnotin hmem
      simpa using ⟨h2, h1⟩
    · exact (List.nodup_cons.mp hnd).2

theorem update_admitted_filled (o : ProbitInFlightOrder) (t : TradeMsg)
    (hex : o.exchange_order_id = some t.order_id)
    (hid : t.id ∉ o.trade_id_set)
    (hst : o.last_state = "filled") :
    o.update_with_trade_update t =
      ({ o with
          trade_id_set := t.id :: o.trade_id_set
          fee_asset := some t.fee_currency_id
          fee_paid := o.fee_paid + t.fee_amount }, true) := by
  unfold ProbitInFlightOrder.update_with_trade_update
  rw [if_neg (by simp [hex, hid])]
  simp [hst]

theorem update_exec_monotone (o : ProbitInFlightOrder) (t : TradeMsg)
    (hq : 0 ≤ t.quantity) (hp : 0 ≤ t.price) :
    o.executed_amount_base ≤ (o.update_with_trade_update t).1.executed_amount_base ∧
    o.executed_amount_quote ≤ (o.update_with_trade_update t).1.executed_amount_quote := by
  by_cases hrej : o.exchange_order_id ≠ some t.order_id ∨ t.id ∈ o.trade_id_set
  · unfold ProbitInFlightOrder.update_with_trade_update
    rw [if_pos hrej]
    exact ⟨le_refl _, le_refl _⟩
  · push_neg at hrej
    by_cases hfill : o.last_state = "filled"
    · rw [update_admitted_filled o t hrej.1 hrej.2 hfill]
      exact ⟨le_refl _, le_refl _⟩
    · rw [update_admitted o t hrej.1 hrej.2 hfill]
      exact ⟨le_add_of_nonneg_right hq, le_add_of_nonneg_right (mul_nonneg hp hq)⟩

/--
C8 (amended): for a tracked order that is not in state "filled",
a sequence of admitted fills — distinct trade ids matching the
order's exchange order id and not yet recorded — accumulates:
starting from zero executed base amount, after the N fills the
executed base amount equals the sum of the N fill quantities.  An
already-recorded trade id is applied at most once (a repeat is
rejected and leaves the order unchanged), and a single update
never decreases the executed amounts when the trade quantity and
price are non-negative.  For a tracked order already in state
"filled" (an order-status poll can mark a still-tracked order
"filled"), a fresh matching trade is still admitted — the update
returns True — but the guard skips accumulation: the executed
amounts are left unchanged, so the unqualified sum equality of
the original claim fails there.
-/
theorem C8_fill_accumulation :
    (∀ (o : ProbitInFlightOrder) (ts : List TradeMsg),
      o.last_state ≠ "filled" → o.executed_amount_base = 0 →
      (∀ t ∈ ts, o.exchange_order_id = some t.order_id) →
      (∀ t ∈ ts, t.id ∉ o.trade_id_set) →
      (ts.map (fun t => t.id)).Nodup →
      (applyFills o ts).executed_amount_base = (ts.map (fun t => t.quantity)).sum)
    ∧ (∀ (o : ProbitInFlightOrder) (t : TradeMsg),
        t.id ∈ o.trade_id_set → o.update_with_trade_update t = (o, false))
    ∧ (∀ (o : ProbitInFlightOrder) (t : TradeMsg), 0 ≤ t.quantity → 0 ≤ t.price →
        o.executed_amount_base ≤ (o.update_with_trade_update t).1.executed_amount_base ∧
        o.executed_amount_quote ≤ (o.update_with_trade_update t).1.executed_amount_quote)
    ∧ (∀ (o : ProbitInFlightOrder) (t : TradeMsg),
        o.exchange_order_id = some t.order_id → t.id ∉ o.trade_id_set →
        o.last_state = "filled" →
        (o.update_with_trade_update t).2 = true ∧
        (o.update_with_trade_update t).1.executed_amount_base = o.executed_amount_base ∧
        (o.update_with_trade_update t).1.executed_amount_quote = o.executed_amount_quote) := by
  refine ⟨?_, update_already_recorded, update_exec_monotone, ?_⟩
  · intro o ts hst hzero hex hid hnd
    rw [applyFills_executed_general ts o hst hex hid hnd, hzero, zero_add]
  · intro o t hex hid hst
    rw [update_admitted_filled o t hex hid hst]
    exact ⟨rfl, rfl, rfl⟩

/-
Concrete data for the C8 witness: a fresh open order and two
admitted fills of quantities 5 and 3.
-/

def oC8 : ProbitInFlightOrder :=
  { client_order_id := "B8"
    exchange_order_id := some "E8"
    trading_pair := "XRP-USDT"
    order_type := OrderType.limit
    trade_type := TradeType.buy
    price := 1
    amount := 10
    executed_amount_base := 0
    executed_amount_quote := 0
    fee_asset := none
    fee_paid := 0
    last_state := "open"
    trade_id_set := [] }

def tC8a : TradeMsg :=
  { id := 81, order_id := "E8", price := 1, quantity := 5, fee_currency_id := "USDT"
    fee_amount := 0, time := 100, status := "settled", market_id := "XRP-USDT" }

def tC8b : TradeMsg :=
  { id := 82, order_id := "E8", price := 1, quantity := 3, fee_currency_id := "USDT"
    fee_amount := 0, time := 101, status := "settled", market_id := "XRP-USDT" }

/--
A tracked order already marked "filled" (as a status poll does,
keeping the order tracked), with zero accumulated executed
amounts, and a fresh matching trade for it.
-/
def oC8f : ProbitInFlightOrder :=
  { oC8 with last_state := "filled" }

def tC8f : TradeMsg :=
  { id := 83, order_id := "E8", price := 1, quantity := 5, fee_currency_id := "USDT"
    fee_amount := 0, time := 102, status := "settled", market_id := "XRP-USDT" }

/--
C8 counterexample: the claim states that for every tracked order,
the executed base amount after N admitted fills equals the sum of
the N fills' quantities.  At this concrete input the tracked
order has been marked "filled" by a status poll (such an order
stays tracked) with executed base amount 0; the fresh matching
trade of quantity 5 is admitted — update_with_trade_update
returns True, recording the trade id — yet the guard that skips
accumulation for filled orders leaves the executed base amount at
0, which differs from the admitted quantity sum 5.
-/
theorem C8_counterexample :
    (oC8f.update_with_trade_update tC8f).2 = true
    ∧ (oC8f.update_with_trade_update tC8f).1.trade_id_set = [83]
    ∧ (oC8f.update_with_trade_update tC8f).1.executed_amount_base = 0
    ∧ oC8f.executed_amount_base = 0
    ∧ tC8f.quantity = 5
    ∧ ((0 : Rat) ≠ 5) := by
  refine ⟨by decide, by decide, by decide, rfl, rfl, by decide⟩

/--
C8 witness: all four parts of the amended theorem applied at the
concrete data above — the two fills of quantities 5 and 3 on the
open order sum up, replaying the first fill onto the updated
order is a rejected no-op, one update does not decrease the
executed amounts, and an admitted fill on the already-"filled"
order leaves its executed amounts unchanged.
-/
theorem C8_witness :
    ((applyFills oC8 [tC8a, tC8b]).executed_amount_base =
      ([tC8a, tC8b].map (fun t => t.quantity)).sum)
    ∧ ((applyFills oC8 [tC8a, tC8b]).update_with_trade_update tC8a =
        (applyFills oC8 [tC8a, tC8b], false))
    ∧ (oC8.executed_amount_base ≤ (oC8.update_with_trade_update tC8a).1.executed_amount_base ∧
       oC8.executed_amount_quote ≤ (oC8.update_with_trade_update tC8a).1.executed_amount_quote)
    ∧ ((oC8f.update_with_trade_update tC8f).2 = true ∧
       (oC8f.update_with_trade_update tC8f).1.executed_amount_base = oC8f.executed_amount_base ∧
       (oC8f.update_with_trade_update tC8f).1.executed_amount_quote =
         oC8f.executed_amount_quote) :=
  ⟨C8_fill_accumulation.1 oC8 [tC8a, tC8b] (by decide) rfl (by decide) (by decide) (by decide),
   C8_fill_accumulation.2.1 _ tC8a (by decide),
   C8_fill_accumulation.2.2.1 oC8 tC8a (by decide) (by decide),
   C8_fill_accumulation.2.2.2 oC8f tC8f (by decide) (by decide) rfl⟩

/-
Prefix lemmas for the two polling result loops: everything before
the first exception item is processed, the exception item aborts
the loop.
-/

theorem process_order_results_before_failure (rs1 : List (Except String (Option OrderMsg)))
    (e : String) (rs2 : List (Except String (Option OrderMsg))) :
    ∀ m : InFlight, (process_order_results m rs1).2.2 = none →
    process_order_results m (rs1 ++ Except.error e :: rs2) =
      ((process_order_results m rs1).1, (process_order_results m rs1).2.1, some e) := by
  induction rs1 with
  | nil => intro m _; simp [process_order_results]
  | cons r rest ih =>
    intro m hok
    match r with
    | Except.error e' => simp [process_order_results] at hok
    | Except.ok none =>
      simp only [process_order_results, List.cons_append, List.append_eq] at hok ⊢
      exact ih m hok
    | Except.ok (some msg) =>
      simp only [process_order_results, List.cons_append, List.append_eq] at hok ⊢
      rw [ih _ hok]

theorem update_trades_results_before_failure (ts1 : List (Except String (List TradeMsg)))
    (e : String) (ts2 : List (Except String (List TradeMsg))) :
    ∀ (wm : Nat) (m : InFlight), (update_trades_results wm m ts1).2.2.2 = false →
    update_trades_results wm m (ts1 ++ Except.error e :: ts2) =
      ((update_trades_results wm m ts1).1, (update_trades_results wm m ts1).2.1,
       (update_trades_results wm m ts1).2.2.1, true) := by
  induction ts1 with
  | nil => intro wm m _; simp [update_trades_results]
  | cons r rest ih =>
    intro wm m hok
    match r with
    | Except.error e' => simp [update_trades_results] at hok
    | Except.ok trades =>
      simp only [update_trades_results, List.cons_append, List.append_eq] at hok ⊢
      rw [ih _ _ hok]

/--
C2 (amended): within one polling cycle, the gathered results that
precede the first failing result are processed, and the first
failing result is re-raised, which skips every result after it in
that same cycle: in _update_order_status the re-raised exception
propagates out of the method (third component below), and in
_update_trades it is caught by the method's own try/except after
aborting the loop (final Bool below).  The claim's assertion that
the other results of the cycle are still processed holds only for
those ordered before the failure.
-/
theorem C2_first_failure_aborts_rest (m : InFlight) (wm : Nat)
    (rs1 : List (Except String (Option OrderMsg))) (e : String)
    (rs2 : List (Except String (Option OrderMsg)))
    (ts1 : List (Except String (List TradeMsg))) (e' : String)
    (ts2 : List (Except String (List TradeMsg)))
    (hok : (process_order_results m rs1).2.2 = none)
    (hok' : (update_trades_results wm m ts1).2.2.2 = false) :
    process_order_results m (rs1 ++ Except.error e :: rs2) =
      ((process_order_results m rs1).1, (process_order_results m rs1).2.1, some e)
    ∧ update_trades_results wm m (ts1 ++ Except.error e' :: ts2) =
      ((update_trades_results wm m ts1).1, (update_trades_results wm m ts1).2.1,
       (update_trades_results wm m ts1).2.2.1, true) :=
  ⟨process_order_results_before_failure rs1 e rs2 m hok,
   update_trades_results_before_failure ts1 e' ts2 wm m hok'⟩

/-
Concrete data for the C2 counterexample: two tracked open orders
"A2" and "B2"; the status poll batch carries a successful result
for "A2", then a failure, then a successful result for "B2".
-/

def oC2a : ProbitInFlightOrder :=
  { client_order_id := "A2"
    exchange_order_id := some "EA2"
    trading_pair := "XRP-USDT"
    order_type := OrderType.limit
    trade_type := TradeType.buy
    price := 1
    amount := 5
    executed_amount_base := 0
    executed_amount_quote := 0
    fee_asset := none
    fee_paid := 0
    last_state := "open"
    trade_id_set := [] }

def oC2b : ProbitInFlightOrder :=
  { oC2a with client_order_id := "B2", exchange_order_id := some "EB2" }

def mC2 : InFlight := [("A2", oC2a), ("B2", oC2b)]

def msgC2a : OrderMsg :=
  { client_order_id := "A2", status := "filled", filled_quantity := 5, filled_cost := 5 }

def msgC2b : OrderMsg :=
  { client_order_id := "B2", status := "filled", filled_quantity := 5, filled_cost := 5 }

def rsC2 : List (Except String (Option OrderMsg)) :=
  [Except.ok (some msgC2a), Except.error "request timeout", Except.ok (some msgC2b)]

/--
C2 counterexample: the claim states that when the status fetch
for one order fails, the results for every other order in the
same cycle are still processed.  At this concrete input the
second gathered result is an exception; the first order's
"filled" result (ordered before it) is applied, but the third
result — order "B2" also reported "filled" — is never processed:
the cycle ends by re-raising the exception, "B2" is still in
state "open" afterwards and no completion event for "B2" was
emitted.
-/
theorem C2_counterexample :
    process_order_results mC2 rsC2 =
      ([("A2", { oC2a with last_state := "filled" }), ("B2", oC2b)],
       [Event.orderCompleted TradeType.buy "A2" "XRP" "USDT" none 5 5 0 OrderType.limit],
       some "request timeout")
    ∧ lookupOrder (process_order_results mC2 rsC2).1 "B2" = some oC2b
    ∧ oC2b.last_state = "open" := by
  refine ⟨by decide, by decide, rfl⟩

/-
Fold lemmas for the per-batch trade loop.
-/

theorem trades_batch_fold_spec (wm : Nat) (l : List TradeMsg) :
    ∀ acc : Nat × InFlight × List Event × List TradeMsg,
    (l.foldl (trades_batch_step wm) acc).2.2.2 =
      acc.2.2.2 ++ l.filter (fun t => decide (wm < t.time ∧ t.status = "settled"))
    ∧ (l.foldl (trades_batch_step wm) acc).1 =
      (l.filter (fun t => decide (wm < t.time ∧ t.status = "settled"))).foldl
        (fun mx t => max mx t.time) acc.1 := by
  induction l with
  | nil => intro acc; simp
  | cons t rest ih =>
    intro acc
    by_cases h : wm < t.time ∧ t.status = "settled"
    · have hstep : trades_batch_step wm acc t =
          (max acc.1 t.time, (process_trade_message acc.2.1 t).1,
           acc.2.2.1 ++ (process_trade_message acc.2.1 t).2, acc.2.2.2 ++ [t]) := by
        unfold trades_batch_step
        rw [if_pos h]
      refine ⟨?_, ?_⟩
      · rw [List.foldl_cons, hstep, (ih _).1]
        simp [List.filter_cons, h]
      · rw [List.foldl_cons, hstep, (ih _).2]
        simp [List.filter_cons, h]
    · have hstep : trades_batch_step wm acc t = acc := by
        unfold trades_batch_step
        rw [if_neg h]
      refine ⟨?_, ?_⟩
      · rw [List.foldl_cons, hstep, (ih _).1]
        simp [List.filter_cons, h]
      · rw [List.foldl_cons, hstep, (ih _).2]
        simp [List.filter_cons, h]

theorem foldl_max_time (l : List TradeMsg) :
    ∀ a : Nat, l.foldl (fun mx t => max mx t.time) a =
      max a ((l.map (fun t => t.time)).foldr max 0) := by
  induction l with
  | nil => intro a; simp
  | cons t rest ih =>
    intro a
    rw [List.foldl_cons, ih (max a t.time)]
    simp [Nat.max_assoc]

theorem mem_le_foldr_max (l : List Nat) (a : Nat) (h : a ∈ l) : a ≤ l.foldr max 0 := by
  induction l with
  | nil => cases h
  | cons b rest ih =>
    rcases List.mem_cons.mp h with rfl | hmem
    · exact Nat.le_max_left _ _
    · exact le_trans (ih hmem) (Nat.le_max_right _ _)

/--
C3 (amended): for every trade batch, the trades passed on for
processing are exactly those of the (reversed, oldest-first)
batch whose time is strictly greater than the stored watermark
AND whose status is "settled" (a not-yet-settled trade is not
admitted even when its time exceeds the watermark); afterwards
the watermark equals the maximum of the old watermark and the
maximum time over the whole admitted batch — hence the maximum
over the whole admitted batch whenever some trade was admitted —
and the watermark never decreases.
-/
theorem C3_trade_admission (wm : Nat) (m : InFlight) (trades : List TradeMsg) :
    ((update_trades_batch wm m trades).2.2.2 =
      trades.reverse.filter (fun t => decide (wm < t.time ∧ t.status = "settled")))
    ∧ (∀ t ∈ (update_trades_batch wm m trades).2.2.2, wm < t.time ∧ t.status = "settled")
    ∧ ((update_trades_batch wm m trades).1 =
        max wm (((update_trades_batch wm m trades).2.2.2.map (fun t => t.time)).foldr max 0))
    ∧ wm ≤ (update_trades_batch wm m trades).1
    ∧ ((update_trades_batch wm m trades).2.2.2 ≠ [] →
        (update_trades_batch wm m trades).1 =
          ((update_trades_batch wm m trades).2.2.2.map (fun t => t.time)).foldr max 0) := by
  have hspec := trades_batch_fold_spec wm trades.reverse (0, m, [], [])
  have h1 : (update_trades_batch wm m trades).2.2.2 =
      trades.reverse.filter (fun t => decide (wm < t.time ∧ t.status = "settled")) := by
    show (List.foldl (trades_batch_step wm) (0, m, [], []) trades.reverse).2.2.2 =
      trades.reverse.filter (fun t => decide (wm < t.time ∧ t.status = "settled"))
    rw [hspec.1]
    exact List.nil_append _
  have hfold1 : (List.foldl (trades_batch_step wm) (0, m, [], []) trades.reverse).1 =
      ((trades.reverse.filter (fun t => decide (wm < t.time ∧ t.status = "settled"))).map
        (fun t => t.time)).foldr max 0 := by
    rw [hspec.2, foldl_max_time]
    exact Nat.zero_max _
  have h2 : (update_trades_batch wm m trades).1 =
      max wm (((update_trades_batch wm m trades).2.2.2.map (fun t => t.time)).foldr max 0) := by
    rw [h1]
    show max (List.foldl (trades_batch_step wm) (0, m, [], []) trades.reverse).1 wm =
      max wm (((trades.reverse.filter
        (fun t => decide (wm < t.time ∧ t.status = "settled"))).map (fun t => t.time)).foldr max 0)
    rw [hfold1]
    exact Nat.max_comm _ _
  have hmem : ∀ t ∈ (update_trades_batch wm m trades).2.2.2,
      wm < t.time ∧ t.status = "settled" := by
    intro t ht
    rw [h1] at ht
    exact of_decide_eq_true (List.mem_filter.mp ht).2
  refine ⟨h1, hmem, h2, ?_, ?_⟩
  · rw [h2]
    exact Nat.le_max_left _ _
  · intro hne
    rw [h2]
    match hadm : (update_trades_batch wm m trades).2.2.2 with
    | [] => exact absurd hadm hne
    | t :: rest =>
      have htw : wm < t.time := (hmem t (by rw [hadm]; exact List.mem_cons_self t rest)).1
      have hle : t.time ≤ ((t :: rest).map (fun t => t.time)).foldr max 0 :=
        mem_le_foldr_max _ _ (List.mem_map_of_mem _ (List.mem_cons_self t rest))
      exact Nat.max_eq_right (le_trans (le_of_lt htw) hle)

/-
Concrete data for the C3 counterexample and witness.
-/

def tC3p : TradeMsg :=
  { id := 5, order_id := "X", price := 1, quantity := 1, fee_currency_id := "USDT"
    fee_amount := 0, time := 5, status := "pending", market_id := "XRP-USDT" }

/--
C3 counterexample: the claim states that exactly the trades whose
timestamp is strictly greater than the watermark are admitted.
At this concrete input a trade with time 5 > watermark 4 but
status "pending" (not "settled") is not admitted — the admitted
batch is empty and the watermark stays 4.
-/
theorem C3_counterexample :
    (update_trades_batch 4 [] [tC3p]).2.2.2 = []
    ∧ 4 < tC3p.time
    ∧ (update_trades_batch 4 [] [tC3p]).1 = 4 := by
  refine ⟨by decide, by decide, by decide⟩

def tC3a : TradeMsg :=
  { id := 5, order_id := "X", price := 1, quantity := 1, fee_currency_id := "USDT"
    fee_amount := 0, time := 5, status := "settled", market_id := "XRP-USDT" }

def tC3b : TradeMsg :=
  { tC3a with id := 3, time := 3 }

def tC3c : TradeMsg :=
  { tC3a with id := 7, time := 7 }

/--
C3 witness: the amended theorem applied to the scenario batch
with trade times 5, 3, 7 against watermark 4 — the admitted
trades are exactly those with times 7 and 5 (processed in the
reversed batch order) and the watermark becomes 7.
-/
theorem C3_witness :
    ((update_trades_batch 4 [] [tC3a, tC3b, tC3c]).2.2.2 =
      [tC3a, tC3b, tC3c].reverse.filter (fun t => decide (4 < t.time ∧ t.status = "settled")))
    ∧ 4 ≤ (update_trades_batch 4 [] [tC3a, tC3b, tC3c]).1
    ∧ ((update_trades_batch 4 [] [tC3a, tC3b, tC3c]).1 =
        ((update_trades_batch 4 [] [tC3a, tC3b, tC3c]).2.2.2.map (fun t => t.time)).foldr max 0)
    ∧ (update_trades_batch 4 [] [tC3a, tC3b, tC3c]).2.2.2 = [tC3c, tC3a]
    ∧ (update_trades_batch 4 [] [tC3a, tC3b, tC3c]).1 = 7 :=
  ⟨(C3_trade_admission 4 [] [tC3a, tC3b, tC3c]).1,
   (C3_trade_admission 4 [] [tC3a, tC3b, tC3c]).2.2.2.1,
   (C3_trade_admission 4 [] [tC3a, tC3b, tC3c]).2.2.2.2 (by decide),
   by decide, by decide⟩

/-
Concrete data for the order-submission claims.
-/

def ruleC4 : TradingRule :=
  { trading_pair := "XRP-USDT"
    min_order_size := 1
    max_order_size := 1000000
    min_price_increment := 1
    min_base_amount_increment := 1 }

def oC4 : ProbitInFlightOrder :=
  ProbitInFlightOrder.init "C4id" (some "EX4") "XRP-USDT" OrderType.limit TradeType.buy
    1 5 "open"

/--
C4 counterexample: the claim states that a tracked order is
created synchronously when the submission request is issued,
before any exchange confirmation, with initial state
PENDING_CREATE.  At this concrete input, (a) a submission whose
venue call fails leaves the tracked set empty — no order was
entered into the tracked set at issuance time, because
start_tracking_order runs only after the create-order response
supplies the exchange order id; and (b) on a successful venue
response, the freshly tracked order's initial lifecycle state is
the string "open", not PENDING_CREATE (no pending state exists in
this connector).
-/
theorem C4_counterexample :
    create_order ruleC4 [] TradeType.buy "C4id" "XRP-USDT" 5 OrderType.limit 1
        (Except.error "network down") =
      CreateOrderResult.done [] [Event.orderFailure "C4id" OrderType.limit]
    ∧ create_order ruleC4 [] TradeType.buy "C4id" "XRP-USDT" 5 OrderType.limit 1
        (Except.ok "EX4") =
      CreateOrderResult.done [("C4id", oC4)]
        [Event.orderCreated TradeType.buy OrderType.limit "XRP-USDT" 5 1 "C4id"]
    ∧ oC4.last_state = "open"
    ∧ ("open" : String) ≠ "PENDING_CREATE" ∧ ("open" : String) ≠ "pending_create" := by
  refine ⟨by decide, by decide, rfl, by decide, by decide⟩

/--
C4 (amended): a tracked order is created and enters the tracked
set only when the order-submission response arrives — the
exchange order id carried by the response is part of the new
record, and on a submission exception nothing is tracked (the
except branch even removes the order id from the tracked set) —
and the initial lifecycle state of the freshly tracked order is
the string "open".
-/
theorem C4_tracking_after_response (rule : TradingRule) (m : InFlight)
    (trade_type : TradeType) (order_id trading_pair : String) (amount : Rat)
    (order_type : OrderType) (price : Rat)
    (hmin : rule.min_order_size ≤ amount) :
    (∀ e, create_order rule m trade_type order_id trading_pair amount order_type price
        (Except.error e) =
      CreateOrderResult.done (removeOrder m order_id)
        [Event.orderFailure order_id order_type])
    ∧ (∀ ex, create_order rule m trade_type order_id trading_pair amount order_type price
        (Except.ok ex) =
      CreateOrderResult.done
        (dictSet m order_id
          (ProbitInFlightOrder.init order_id (some ex) trading_pair order_type trade_type
            price amount "open"))
        [Event.orderCreated trade_type order_type trading_pair amount price order_id]) := by
  constructor
  · intro e
    unfold create_order
    rw [if_neg (not_lt.mpr hmin)]
  · intro ex
    unfold create_order
    rw [if_neg (not_lt.mpr hmin)]
    rfl

/-- C4 witness: the amended theorem applied at the concrete input above. -/
theorem C4_witness :
    (create_order ruleC4 [] TradeType.buy "C4w" "XRP-USDT" 5 OrderType.limit 1
        (Except.error "network down") =
      CreateOrderResult.done (removeOrder [] "C4w")
        [Event.orderFailure "C4w" OrderType.limit])
    ∧ (create_order ruleC4 [] TradeType.buy "C4w" "XRP-USDT" 5 OrderType.limit 1
        (Except.ok "EX4") =
      CreateOrderResult.done
        (dictSet [] "C4w"
          (ProbitInFlightOrder.init "C4w" (some "EX4") "XRP-USDT" OrderType.limit
            TradeType.buy 1 5 "open"))
        [Event.orderCreated TradeType.buy OrderType.limit "XRP-USDT" 5 1 "C4w"]) :=
  ⟨(C4_tracking_after_response ruleC4 [] TradeType.buy "C4w" "XRP-USDT" 5 OrderType.limit 1
      (by decide)).1 "network down",
   (C4_tracking_after_response ruleC4 [] TradeType.buy "C4w" "XRP-USDT" 5 OrderType.limit 1
      (by decide)).2 "EX4"⟩

/--
C9 counterexample: the claim states that every order-submission
failure — including one rejected before the venue call because
the amount is below the minimum order size — surfaces as a
failure event preserving the order's type, side and amount.  At
this concrete input an order for amount 0 (below the minimum 1)
raises the below-minimum ValueError before the try block of
_create_order: the coroutine ends with an uncaught exception and
no event of any kind is emitted, even with a venue that would
accept the order.
-/
theorem C9_counterexample :
    create_order ruleC4 [] TradeType.buy "C9id" "XRP-USDT" 0 OrderType.limit 1
        (Except.ok "EX9") =
      CreateOrderResult.raised
    ∧ create_order ruleC4 [] TradeType.buy "C9id" "XRP-USDT" 0 OrderType.limit 1
        (Except.error "would not even be called") =
      CreateOrderResult.raised := by
  refine ⟨by decide, by decide⟩

/--
C9 (amended): a submission whose venue call raises surfaces as a
MarketOrderFailureEvent carrying the client order id and the
order type (the event type carries no side and no amount fields),
with the order removed from tracking; but a submission rejected
before the venue call for violating the minimum order size raises
out of _create_order and emits no failure event at all.
-/
theorem C9_failure_event (rule : TradingRule) (m : InFlight)
    (trade_type : TradeType) (order_id trading_pair : String) (amount : Rat)
    (order_type : OrderType) (price : Rat) :
    (amount < rule.min_order_size →
      ∀ venue, create_order rule m trade_type order_id trading_pair amount order_type price
        venue = CreateOrderResult.raised)
    ∧ (rule.min_order_size ≤ amount →
      ∀ e, create_order rule m trade_type order_id trading_pair amount order_type price
        (Except.error e) =
      CreateOrderResult.done (removeOrder m order_id)
        [Event.orderFailure order_id order_type]) := by
  constructor
  · intro hlt venue
    unfold create_order
    rw [if_pos hlt]
  · intro hmin e
    unfold create_order
    rw [if_neg (not_lt.mpr hmin)]

/-- C9 witness: the amended theorem applied at concrete inputs. -/
theorem C9_witness :
    (create_order ruleC4 [] TradeType.sell "C9w" "XRP-USDT" 0 OrderType.limit 1
        (Except.ok "EX9w") = CreateOrderResult.raised)
    ∧ (create_order ruleC4 [] TradeType.sell "C9w" "XRP-USDT" 5 OrderType.limit 1
        (Except.error "insufficient balance") =
      CreateOrderResult.done (removeOrder [] "C9w")
        [Event.orderFailure "C9w" OrderType.limit]) :=
  ⟨(C9_failure_event ruleC4 [] TradeType.sell "C9w" "XRP-USDT" 0 OrderType.limit 1).1
      (by decide) (Except.ok "EX9w"),
   (C9_failure_event ruleC4 [] TradeType.sell "C9w" "XRP-USDT" 5 OrderType.limit 1).2
      (by decide) "insufficient balance"⟩

/-
Helper lemmas for cancel_all.
-/

theorem execute_cancel_eq_some (o : ProbitInFlightOrder) (r : Except String String)
    (x : String) (h : execute_cancel o r = some x) : x = o.client_order_id := by
  unfold execute_cancel at h
  split at h
  · cases h
  · split at h
    · cases h
    · split at h
      · exact (Option.some.inj h).symm
      · cases h

theorem cancel_filterMap_sublist (l : List (ProbitInFlightOrder × Except String String)) :
    List.Sublist (l.filterMap (fun p => execute_cancel p.1 p.2))
      (l.map (fun p => p.1.client_order_id)) := by
  induction l with
  | nil => simp
  | cons p rest ih =>
    cases hx : execute_cancel p.1 p.2 with
    | none =>
      rw [@List.filterMap_cons_none _ _ (fun q => execute_cancel q.1 q.2) p rest hx,
        List.map_cons]
      exact ih.cons _
    | some x =>
      have hx' : x = p.1.client_order_id := execute_cancel_eq_some _ _ _ hx
      rw [@List.filterMap_cons_some _ _ (fun q => execute_cancel q.1 q.2) p rest x hx,
        List.map_cons, hx']
      exact ih.cons₂ _

theorem filter_mem_eq_of_sublist {l' l : List String} (h : List.Sublist l' l) (hn : l.Nodup) :
    l.filter (fun i => decide (i ∈ l')) = l' := by
  revert hn
  induction h with
  | slnil => intro _; rfl
  | @cons l1 l2 a h ih =>
    intro hn
    have hal2 : a ∉ l2 := (List.nodup_cons.mp hn).1
    have hnl2 : l2.Nodup := (List.nodup_cons.mp hn).2
    have hal1 : a ∉ l1 := fun hc => hal2 (h.subset hc)
    simp only [List.filter_cons, decide_eq_true_eq]
    rw [if_neg hal1]
    exact ih hnl2
  | @cons₂ l1 l2 a h ih =>
    intro hn
    have hal2 : a ∉ l2 := (List.nodup_cons.mp hn).1
    have hnl2 : l2.Nodup := (List.nodup_cons.mp hn).2
    simp only [List.filter_cons, decide_eq_true_eq]
    rw [if_pos (List.mem_cons_self a l1)]
    have hcongr : List.filter (fun i => decide (i ∈ a :: l1)) l2 =
        List.filter (fun i => decide (i ∈ l1)) l2 := by
      apply List.filter_congr
      intro x hx
      have hxa : x ≠ a := fun hc => hal2 (hc ▸ hx)
      simp [List.mem_cons, hxa]
    rw [hcongr, ih hnl2]

/--
C6: cancel_all over the incomplete tracked orders returns one
CancellationResult per order — the returned order ids are a
permutation of the incomplete orders' client ids — and marks each
order individually: a successful entry for exactly the orders
whose _execute_cancel returned their id, a failed entry for
exactly the others.  The hypotheses say that the gather produced
one response per incomplete order and that client ids are unique
(Python dict keys).
-/
theorem C6_cancel_all_per_order (m : InFlight) (resps : List (Except String String))
    (hlen : (incomplete_orders m).length ≤ resps.length)
    (hnd : ((incomplete_orders m).map (fun o => o.client_order_id)).Nodup) :
    ((cancel_all m resps).map (fun r => r.order_id)).Perm
      ((incomplete_orders m).map (fun o => o.client_order_id))
    ∧ (∀ i, CancellationResult.mk i true ∈ cancel_all m resps ↔
        i ∈ cancel_successes m resps)
    ∧ (∀ i, CancellationResult.mk i false ∈ cancel_all m resps ↔
        (i ∈ (incomplete_orders m).map (fun o => o.client_order_id)
          ∧ i ∉ cancel_successes m resps)) := by
  have hsub : List.Sublist (cancel_successes m resps)
      ((incomplete_orders m).map (fun o => o.client_order_id)) := by
    have h1 := cancel_filterMap_sublist ((incomplete_orders m).zip resps)
    have h2 : ((incomplete_orders m).zip resps).map (fun p => p.1.client_order_id) =
        (incomplete_orders m).map (fun o => o.client_order_id) := by
      have hfst := List.map_fst_zip (incomplete_orders m) resps hlen
      have h3 : (((incomplete_orders m).zip resps).map Prod.fst).map
          (fun o => o.client_order_id) =
          (incomplete_orders m).map (fun o => o.client_order_id) := by rw [hfst]
      rw [List.map_map] at h3
      exact h3
    rw [h2] at h1
    exact h1
  have hfilter : ((incomplete_orders m).map (fun o => o.client_order_id)).filter
      (fun i => decide (i ∈ cancel_successes m resps)) = cancel_successes m resps :=
    filter_mem_eq_of_sublist hsub hnd
  refine ⟨?_, ?_, ?_⟩
  · have hmap : (cancel_all m resps).map (fun r => r.order_id) =
        cancel_successes m resps ++
          ((incomplete_orders m).map (fun o => o.client_order_id)).filter
            (fun i => decide (i ∉ cancel_successes m resps)) := by
      unfold cancel_all
      simp [List.map_map, Function.comp_def]
    rw [hmap]
    have hperm := List.filter_append_perm
      (fun i => decide (i ∈ cancel_successes m resps))
      ((incomplete_orders m).map (fun o => o.client_order_id))
    rw [hfilter] at hperm
    simpa [decide_not] using hperm
  · intro i
    unfold cancel_all
    simp
  · intro i
    unfold cancel_all
    simp [List.mem_filter]

/-
Concrete data for the C6 witness: three incomplete tracked orders
where the second order's cancel request errors.
-/

def oC6a : ProbitInFlightOrder :=
  { client_order_id := "A6"
    exchange_order_id := some "EA6"
    trading_pair := "XRP-USDT"
    order_type := OrderType.limit
    trade_type := TradeType.buy
    price := 1
    amount := 5
    executed_amount_base := 0
    executed_amount_quote := 0
    fee_asset := none
    fee_paid := 0
    last_state := "open"
    trade_id_set := [] }

def oC6b : ProbitInFlightOrder :=
  { oC6a with client_order_id := "B6", exchange_order_id := some "EB6" }

def oC6c : ProbitInFlightOrder :=
  { oC6a with client_order_id := "D6", exchange_order_id := some "ED6" }

def mC6 : InFlight := [("A6", oC6a), ("B6", oC6b), ("D6", oC6c)]

def respsC6 : List (Except String String) :=
  [Except.ok "EA6", Except.error "rate limited", Except.ok "ED6"]

/--
C6 witness: the per-order theorem applied to three tracked orders
with one erroring cancel request — the returned results are one
per order, and concretely two successes and one failure, with no
aggregate exception.
-/
theorem C6_witness :
    ((cancel_all mC6 respsC6).map (fun r => r.order_id)).Perm
      ((incomplete_orders mC6).map (fun o => o.client_order_id))
    ∧ (CancellationResult.mk "A6" true ∈ cancel_all mC6 respsC6 ↔
        "A6" ∈ cancel_successes mC6 respsC6)
    ∧ cancel_all mC6 respsC6 =
      [CancellationResult.mk "A6" true, CancellationResult.mk "D6" true,
       CancellationResult.mk "B6" false] :=
  ⟨(C6_cancel_all_per_order mC6 respsC6 (by decide) (by decide)).1,
   (C6_cancel_all_per_order mC6 respsC6 (by decide) (by decide)).2.1 "A6",
   by decide⟩

/--
C7: applying an order-book snapshot whose version token is less
than or equal to the currently applied version is a no-op, and
for every sequence of snapshots applied with strictly increasing
version tokens (all ahead of the book's current version), the
final book equals the content of the last applied snapshot.
-/
theorem C7_snapshot_staleness_monotone :
    (∀ (b : OrderBookState) (bids asks : List (Rat × Rat)) (v c : Nat),
      b.snapshot_uid = some c → v ≤ c → applySnapshot b bids asks v = b)
    ∧ (∀ (l : List (List (Rat × Rat) × List (Rat × Rat) × Nat)) (b : OrderBookState),
        l.Chain' (fun s1 s2 => s1.2.2 < s2.2.2) →
        (∀ c s, b.snapshot_uid = some c → l.head? = some s → c < s.2.2) →
        ∀ s, l.getLast? = some s →
          applySnapshots b l = { bids := s.1, asks := s.2.1, snapshot_uid := some s.2.2 }) := by
  constructor
  · intro b bids asks v c hc hv
    unfold applySnapshot
    rw [hc]
    exact if_neg (not_lt.mpr hv)
  · intro l
    induction l with
    | nil => intro b _ _ s hs; cases hs
    | cons s0 rest ih =>
      intro b hchain hhead s hlast
      have hfirst : applySnapshot b s0.1 s0.2.1 s0.2.2 =
          { bids := s0.1, asks := s0.2.1, snapshot_uid := some s0.2.2 } := by
        unfold applySnapshot
        cases hb : b.snapshot_uid with
        | none => rfl
        | some c => exact if_pos (hhead c s0 hb rfl)
      have hstep : applySnapshots b (s0 :: rest) =
          applySnapshots { bids := s0.1, asks := s0.2.1, snapshot_uid := some s0.2.2 } rest := by
        unfold applySnapshots
        rw [List.foldl_cons, hfirst]
      rw [hstep]
      match rest, hchain, hlast with
      | [], _, hlast =>
        have hs : s0 = s := Option.some.inj hlast
        rw [← hs]
        rfl
      | s1 :: rest2, hchain, hlast =>
        have hc := List.chain'_cons.mp hchain
        refine ih _ hc.2 ?_ s ?_
        · intro c s' hcu hh
          have hc1 : c = s0.2.2 := Option.some.inj hcu.symm
          have hs1 : s' = s1 := Option.some.inj hh.symm
          rw [hc1, hs1]
          exact hc.1
        · rw [← hlast]
          exact List.getLast?_cons_cons.symm

/-
Concrete data for the C7 witness: a book already at version 100
and a late snapshot with version 98.
-/

def bookC7 : OrderBookState :=
  { bids := [(100, 1)], asks := [(101, 2)], snapshot_uid := some 100 }

/--
C7 witness: the staleness part applied at a concrete book — a
version-98 snapshot arriving after version 100 leaves the book at
version 100's content — and the monotone-replace part applied to
a concrete increasing snapshot sequence.
-/
theorem C7_witness :
    applySnapshot bookC7 [(99, 5)] [(102, 6)] 98 = bookC7
    ∧ applySnapshots { bids := [], asks := [], snapshot_uid := none }
        [([(1, 1)], [(2, 2)], 99), ([(3, 3)], [(4, 4)], 100)] =
      { bids := [(3, 3)], asks := [(4, 4)], snapshot_uid := some 100 } :=
  ⟨C7_snapshot_staleness_monotone.1 bookC7 [(99, 5)] [(102, 6)] 98 100 rfl (by decide),
   C7_snapshot_staleness_monotone.2 [([(1, 1)], [(2, 2)], 99), ([(3, 3)], [(4, 4)], 100)]
     { bids := [], asks := [], snapshot_uid := none }
     (List.chain'_pair.mpr (by decide))
     (by intro c s hc hs; cases hc) _ rfl⟩

/--
C2 witness: the prefix theorem applied at a concrete cycle — one
successfully processed status result followed by a failure and a
skipped result, and one successfully processed (empty) trade
batch followed by a failure and a skipped batch.
-/
theorem C2_witness :
    process_order_results mC2 ([Except.ok (some msgC2a)] ++
        Except.error "request timeout" :: [Except.ok (some msgC2b)]) =
      ((process_order_results mC2 [Except.ok (some msgC2a)]).1,
       (process_order_results mC2 [Except.ok (some msgC2a)]).2.1,
       some "request timeout")
    ∧ update_trades_results 4 mC2 ([Except.ok []] ++
        Except.error "request timeout" :: [Except.ok [tC3a]]) =
      ((update_trades_results 4 mC2 [Except.ok []]).1,
       (update_trades_results 4 mC2 [Except.ok []]).2.1,
       (update_trades_results 4 mC2 [Except.ok []]).2.2.1, true) :=
  C2_first_failure_aborts_rest mC2 4 [Except.ok (some msgC2a)] "request timeout"
    [Except.ok (some msgC2b)] [Except.ok []] "request timeout" [Except.ok [tC3a]]
    (by decide) (by decide)
